import Mathlib

/-!
Shallow embedding of the goheap refheap API client for specification
checking.  Pure data flow is taken from the current revision of
goheap.go; the HTTP transport is modelled as a function from the request
the client builds to either a transport-level error (the nil-response
error of the Go HTTP client) or a Response carrying a status code and a
body.  A body is modelled as Except String (Option Json): the error case
models a failure while reading the body (ioutil.ReadAll), ok none models
bytes that are not well-formed JSON, and ok (some j) models bytes whose
JSON parse is j.  encoding/json unmarshalling into the three struct
shapes used by the client is modelled field by field, including the Go
behaviours that matter here: unknown object keys are ignored, a JSON
null leaves a field untouched, a type mismatch between a JSON value and
the target field is reported as an error while the remaining fields are
still decoded (best-effort decoding), and JSON keys match struct field
tags case-insensitively.
-/

/-- JSON values as produced by parsing a response body.  Numbers are
restricted to integers, which covers every numeric field of the client
(line and view counts). -/
inductive Json where
  | null
  | bool (b : Bool)
  | num (n : Int)
  | str (s : String)
  | arr (elems : List Json)
  | obj (fields : List (String × Json))

/-- Errors a client call can return, mirroring the Go error values:
transport is the error returned by the HTTP call itself, readErr a
failure of ioutil.ReadAll, badJson a JSON syntax error from
json.Unmarshal, typeMismatch an UnmarshalTypeError, and refheap the
RefheapError built from a non-empty error field of the response. -/
inductive GoErr where
  | transport (e : String)
  | readErr (e : String)
  | badJson
  | typeMismatch
  | refheap (msg : String)
deriving DecidableEq, Repr

/-- A decode-class error: malformed JSON or a field type mismatch,
both produced by json.Unmarshal. -/
def GoErr.isDecode : GoErr → Bool
  | .badJson => true
  | .typeMismatch => true
  | _ => false

/-- Default URL for refheap (constant RefheapURL in goheap.go). -/
def RefheapURL : String := "https://www.refheap.com/api"

/-- Client configuration (struct Config in goheap.go). -/
structure Config where
  URL : String
  User : String
  Key : String
deriving DecidableEq, Repr

/-- Error returned by NewConfig on a bad argument count
(struct ConfigError in goheap.go); carries the offending arguments. -/
structure ConfigError where
  Args : List String
deriving DecidableEq, Repr

/-- NewConfig from goheap.go: variadic convenience constructor.  The Go
function has named results (config Config, err error); in the default
branch only err is assigned, so config keeps its zero value. -/
def NewConfig (args : List String) : Config × Option ConfigError :=
  match args with
  | [] => (⟨RefheapURL, "", ""⟩, none)
  | [a] => (⟨a, "", ""⟩, none)
  | [a, b] => (⟨RefheapURL, a, b⟩, none)
  | [a, b, c] => (⟨a, b, c⟩, none)
  | _ => (⟨"", "", ""⟩, some ⟨args⟩)

/-- A refheap paste (struct Paste in goheap.go).  The JSON tags of the
Go struct are lines, views, date, paste-id, language, private, url,
user, contents. -/
structure Paste where
  Lines : Int
  Views : Int
  Date : String
  ID : String
  Language : String
  Private : Bool
  URL : String
  User : String
  Contents : String
deriving DecidableEq, Repr

/-- The error shape refheap reports in a response body
(struct RefheapError in goheap.go, JSON tag error). -/
structure RefheapError where
  ErrorMessage : String
deriving DecidableEq, Repr

/-- Result of GetHighlighted (struct highlightedPaste in goheap.go).
The Content field carries no JSON tag, so json.Unmarshal matches the
key content case-insensitively. -/
structure highlightedPaste where
  Content : String
deriving DecidableEq, Repr

/-- ASCII lower-casing of one character, used to model the
case-insensitive field matching of json.Unmarshal. -/
def lowerChar (c : Char) : Char :=
  if 65 ≤ c.toNat ∧ c.toNat ≤ 90 then Char.ofNat (c.toNat + 32) else c

/-- ASCII lower-casing of a JSON object key. -/
def lowerKey (s : String) : String :=
  String.mk (s.data.map lowerChar)

/-- One assignment step of json.Unmarshal into a Paste: given an object
key and its value, write the matching field.  Returns the updated
record and whether the value had the wrong type for the field (an
UnmarshalTypeError); a null value and an unknown key are ignored. -/
def pasteSetField (p : Paste) (key : String) (v : Json) : Paste × Bool :=
  match lowerKey key, v with
  | "lines", .num n => ({ p with Lines := n }, false)
  | "lines", .null => (p, false)
  | "lines", _ => (p, true)
  | "views", .num n => ({ p with Views := n }, false)
  | "views", .null => (p, false)
  | "views", _ => (p, true)
  | "date", .str s => ({ p with Date := s }, false)
  | "date", .null => (p, false)
  | "date", _ => (p, true)
  | "paste-id", .str s => ({ p with ID := s }, false)
  | "paste-id", .null => (p, false)
  | "paste-id", _ => (p, true)
  | "language", .str s => ({ p with Language := s }, false)
  | "language", .null => (p, false)
  | "language", _ => (p, true)
  | "private", .bool b => ({ p with Private := b }, false)
  | "private", .null => (p, false)
  | "private", _ => (p, true)
  | "url", .str s => ({ p with URL := s }, false)
  | "url", .null => (p, false)
  | "url", _ => (p, true)
  | "user", .str s => ({ p with User := s }, false)
  | "user", .null => (p, false)
  | "user", _ => (p, true)
  | "contents", .str s => ({ p with Contents := s }, false)
  | "contents", .null => (p, false)
  | "contents", _ => (p, true)
  | _, _ => (p, false)

/-- One assignment step of json.Unmarshal into a RefheapError. -/
def refheapSetField (r : RefheapError) (key : String) (v : Json) : RefheapError × Bool :=
  match lowerKey key, v with
  | "error", .str s => (⟨s⟩, false)
  | "error", .null => (r, false)
  | "error", _ => (r, true)
  | _, _ => (r, false)

/-- One assignment step of json.Unmarshal into a highlightedPaste. -/
def highlightSetField (h : highlightedPaste) (key : String) (v : Json) : highlightedPaste × Bool :=
  match lowerKey key, v with
  | "content", .str s => (⟨s⟩, false)
  | "content", .null => (h, false)
  | "content", _ => (h, true)
  | _, _ => (h, false)

/-- Best-effort decoding of a list of JSON object fields into a struct:
every field is processed in order (later duplicates win, exactly as in
json.Unmarshal), well-typed assignments are performed even after a type
mismatch, and the first type mismatch is kept as the returned error. -/
def unmarshalFields {σ : Type} (set : σ → String → Json → σ × Bool) :
    List (String × Json) → σ × Option GoErr → σ × Option GoErr
  | [], acc => acc
  | (k, v) :: rest, (s, e) =>
    match set s k v with
    | (s1, bad) =>
      unmarshalFields set rest
        (s1,
          match e with
          | some err => some err
          | none => if bad then some GoErr.typeMismatch else none)

/-- json.Unmarshal of a parsed JSON value into a struct: null is a
no-op, a non-object value is an UnmarshalTypeError that leaves the
destination untouched, and an object is decoded field by field. -/
def unmarshalInto {σ : Type} (set : σ → String → Json → σ × Bool) (j : Json) (s : σ) :
    σ × Option GoErr :=
  match j with
  | .null => (s, none)
  | .obj fields => unmarshalFields set fields (s, none)
  | _ => (s, some GoErr.typeMismatch)

/-- json.Unmarshal(body, paste) for a parsed body. -/
def unmarshalPaste (j : Json) (p : Paste) : Paste × Option GoErr :=
  unmarshalInto pasteSetField j p

/-- json.Unmarshal(body, newErr) for a parsed body. -/
def unmarshalRefheapError (j : Json) (r : RefheapError) : RefheapError × Option GoErr :=
  unmarshalInto refheapSetField j r

/-- json.Unmarshal(body, s) into a highlightedPaste for a parsed body. -/
def unmarshalHighlighted (j : Json) (h : highlightedPaste) : highlightedPaste × Option GoErr :=
  unmarshalInto highlightSetField j h

/-- An HTTP response: status code and body.  The body is the outcome of
reading the response stream: a read error, bytes that are not valid
JSON, or bytes parsing to a JSON value. -/
structure Response where
  StatusCode : Int
  body : Except String (Option Json)

/-- readBody from goheap.go: reads (and closes) the response body.  The
close side effect has no observable value-level behaviour and is not
modelled. -/
def readBody (resp : Response) : Except String (Option Json) :=
  resp.body

/-- parseBody from goheap.go, generic in the destination shape exactly
as the Go function is generic through interface argument to: read the
body, unmarshal it into RefheapError, fail with that error message when
it is non-empty, and otherwise unmarshal the same body into the
destination when one was supplied (the Go parameter is named to and is
nil-checked; Lean reserves that name, so it is called dest here).
Returns the final destination state together with the error, since
json.Unmarshal writes through the destination pointer even when it
reports a type mismatch. -/
def parseBody {σ : Type} (dec : Json → σ → σ × Option GoErr) (resp : Response)
    (dest : Option σ) : Option σ × Option GoErr :=
  match readBody resp with
  | .error e => (dest, some (GoErr.readErr e))
  | .ok none => (dest, some GoErr.badJson)
  | .ok (some j) =>
    match unmarshalRefheapError j ⟨""⟩ with
    | (_, some err) => (dest, some err)
    | (newErr, none) =>
      if newErr.ErrorMessage ≠ "" then (dest, some (GoErr.refheap newErr.ErrorMessage))
      else
        match dest with
        | some dst => (some (dec j dst).1, (dec j dst).2)
        | none => (none, none)

/-- url.Values.Add: appends one key-value pair to the outgoing form
data.  Form data is modelled as the sequence of Add calls. -/
def Values.add (data : List (String × String)) (key value : String) :
    List (String × String) :=
  data ++ [(key, value)]

/-- addAuth from goheap.go: when a username is configured, add the
username and token fields to the outgoing data; otherwise add nothing. -/
def addAuth (data : List (String × String)) (config : Config) : List (String × String) :=
  if config.User ≠ "" then Values.add (Values.add data "username" config.User) "token" config.Key
  else data

/-- Upper-case hexadecimal digit, for percent-encoding. -/
def hexUpper (n : Nat) : Char :=
  if n < 10 then Char.ofNat (48 + n) else Char.ofNat (55 + n)

/-- Bytes that url.QueryEscape leaves unescaped: ASCII letters, digits,
and the marks minus, underscore, dot and tilde. -/
def unreservedQueryByte (b : UInt8) : Bool :=
  decide ((65 ≤ b.toNat ∧ b.toNat ≤ 90) ∨ (97 ≤ b.toNat ∧ b.toNat ≤ 122) ∨
    (48 ≤ b.toNat ∧ b.toNat ≤ 57) ∨ b.toNat = 45 ∨ b.toNat = 95 ∨ b.toNat = 46 ∨ b.toNat = 126)

/-- url.QueryEscape of a single byte: space becomes plus, unreserved
bytes stay, everything else is percent-encoded. -/
def queryEscapeByte (b : UInt8) : String :=
  if b.toNat = 32 then "+"
  else if unreservedQueryByte b then String.singleton (Char.ofNat b.toNat)
  else String.mk [Char.ofNat 37, hexUpper (b.toNat / 16), hexUpper (b.toNat % 16)]

/-- url.QueryEscape over the UTF-8 bytes of a string. -/
def queryEscape (s : String) : String :=
  String.join (s.toUTF8.toList.map queryEscapeByte)

/-- Insertion of a key into a sorted key list (url.Values.Encode sorts
the keys before encoding). -/
def insertKey (k : String) : List String → List String
  | [] => [k]
  | x :: xs => if k ≤ x then k :: x :: xs else x :: insertKey k xs

/-- Sorting of form-data keys. -/
def sortKeys (l : List String) : List String :=
  l.foldr insertKey []

/-- Deduplication of form-data keys, keeping first occurrences. -/
def dedupKeys (seen : List String) : List String → List String
  | [] => []
  | x :: xs => if seen.contains x then dedupKeys seen xs else x :: dedupKeys (x :: seen) xs

/-- url.Values.Encode: keys sorted, each key followed by its values in
Add order, pairs joined with ampersands, keys and values escaped. -/
def Values.encode (data : List (String × String)) : String :=
  let keys := sortKeys (dedupKeys [] (data.map Prod.fst))
  String.intercalate "&"
    (List.flatten (keys.map (fun k =>
      (data.filter (fun kv => kv.1 == k)).map
        (fun kv => queryEscape k ++ "=" ++ queryEscape kv.2))))

/-- strconv.FormatBool. -/
def formatBool (b : Bool) : String :=
  if b then "true" else "false"

/-- HTTP methods used by the client. -/
inductive Method where
  | GET
  | POST
  | DELETE
deriving DecidableEq, Repr

/-- The request a client operation hands to the HTTP layer: method, full
URL (query included for Delete), and form body (empty for GET and
DELETE, which send no form). -/
structure Request where
  method : Method
  url : String
  form : List (String × String)

/-- The HTTP transport: maps the request the client sends to either a
connection-level error, in which case the Go HTTP functions return a nil
response, or a response. -/
abbrev Transport := Request → Except String Response

/-- State of the caller's Paste after parseBody(resp, paste) together
with the returned error: parseBody writes the record through the
pointer, so the record after the call is the first component of
parseBody when it produced one, and unchanged otherwise. -/
def pasteResponse (paste : Paste) (resp : Response) : Paste × Option GoErr :=
  ((parseBody unmarshalPaste resp (some paste)).1.getD paste,
   (parseBody unmarshalPaste resp (some paste)).2)

/-- Shared shape of Get, createOrSave and Fork: if the HTTP call
errored, return that error with the record untouched (the Go code
checks err before using the response); otherwise decode the response
into the record with parseBody. -/
def httpOutcome (paste : Paste) (r : Except String Response) : Paste × Option GoErr :=
  match r with
  | .error e => (paste, some (GoErr.transport e))
  | .ok resp => pasteResponse paste resp

/-- The GET request built by Paste.Get: no form data, no auth. -/
def Paste.getRequest (config : Config) (paste : Paste) : Request :=
  ⟨Method.GET, config.URL ++ "/paste/" ++ paste.ID, []⟩

/-- Get from goheap.go. -/
def Paste.Get (config : Config) (paste : Paste) (tr : Transport) : Paste × Option GoErr :=
  httpOutcome paste (tr (Paste.getRequest config paste))

/-- Form data built by createOrSave: auth fields first, then contents
if non-empty, then language if non-empty, then the private flag. -/
def createOrSaveData (config : Config) (paste : Paste) : List (String × String) :=
  let data : List (String × String) := []
  let data := addAuth data config
  let data := if paste.Contents ≠ "" then Values.add data "contents" paste.Contents else data
  let data := if paste.Language ≠ "" then Values.add data "language" paste.Language else data
  Values.add data "private" (formatBool paste.Private)

/-- createOrSave from goheap.go: POST the form data to the given
endpoint and decode the response into the record. -/
def Paste.createOrSave (endpoint : String) (config : Config) (paste : Paste)
    (tr : Transport) : Paste × Option GoErr :=
  httpOutcome paste (tr ⟨Method.POST, endpoint, createOrSaveData config paste⟩)

/-- Create from goheap.go. -/
def Paste.Create (config : Config) (paste : Paste) (tr : Transport) : Paste × Option GoErr :=
  Paste.createOrSave (config.URL ++ "/paste") config paste tr

/-- Save from goheap.go. -/
def Paste.Save (config : Config) (paste : Paste) (tr : Transport) : Paste × Option GoErr :=
  Paste.createOrSave (config.URL ++ "/paste/" ++ paste.ID) config paste tr

/-- The request Create sends. -/
def Paste.createRequest (config : Config) (paste : Paste) : Request :=
  ⟨Method.POST, config.URL ++ "/paste", createOrSaveData config paste⟩

/-- The request Save sends. -/
def Paste.saveRequest (config : Config) (paste : Paste) : Request :=
  ⟨Method.POST, config.URL ++ "/paste/" ++ paste.ID, createOrSaveData config paste⟩

/-- Outcome of Delete.  nilDeref models the nil-pointer dereference
that Go performs when the HTTP call fails: Delete reads resp.StatusCode
without checking the error, and on a transport error resp is nil. -/
inductive DeleteOutcome where
  | nilDeref
  | ret (err : Option GoErr)
deriving DecidableEq, Repr

/-- The URL built by Delete: auth fields are appended as escaped query
parameters after a question mark. -/
def Paste.deleteUrl (config : Config) (paste : Paste) : String :=
  config.URL ++ "/paste/" ++ paste.ID ++ "?" ++ Values.encode (addAuth [] config)

/-- Delete from goheap.go: a DELETE request with auth in the query.  The
status code of the response is inspected before the error of the HTTP
call is checked, so a transport error is a nil-pointer dereference; on a
response, a non-204 status is decoded with no destination to surface the
service error, and a 204 status returns no error. -/
def Paste.Delete (config : Config) (paste : Paste) (tr : Transport) : DeleteOutcome :=
  match tr ⟨Method.DELETE, Paste.deleteUrl config paste, []⟩ with
  | .error _ => DeleteOutcome.nilDeref
  | .ok resp =>
    if resp.StatusCode ≠ 204 then
      DeleteOutcome.ret (parseBody unmarshalPaste resp (none : Option Paste)).2
    else DeleteOutcome.ret none

/-- The request Fork sends: auth fields and the source id. -/
def Paste.forkRequest (config : Config) (paste : Paste) : Request :=
  ⟨Method.POST, config.URL ++ "/paste/" ++ paste.ID ++ "/fork",
   Values.add (addAuth [] config) "id" paste.ID⟩

/-- Fork from goheap.go. -/
def Paste.Fork (config : Config) (paste : Paste) (tr : Transport) : Paste × Option GoErr :=
  httpOutcome paste (tr (Paste.forkRequest config paste))

/-- The GET request built by GetHighlighted: no form data, no auth. -/
def Paste.highlightRequest (config : Config) (paste : Paste) : Request :=
  ⟨Method.GET, config.URL ++ "/paste/" ++ paste.ID ++ "/highlight", []⟩

/-- GetHighlighted from goheap.go.  The first component is the state of
the caller's Paste after the call: the function only reads paste.ID and
never writes the record, on any path.  The named result s starts as the
zero value and is decoded from the response body. -/
def Paste.GetHighlighted (config : Config) (paste : Paste) (tr : Transport) :
    Paste × highlightedPaste × Option GoErr :=
  match tr (Paste.highlightRequest config paste) with
  | .error e => (paste, ⟨""⟩, some (GoErr.transport e))
  | .ok resp =>
    (paste, (parseBody unmarshalHighlighted resp (some ⟨""⟩)).1.getD ⟨""⟩,
     (parseBody unmarshalHighlighted resp (some ⟨""⟩)).2)

/-- A response body carrying all nine wire fields of a paste, with the
values of q (field names on the wire per section 6 of the spec). -/
def pasteJson (q : Paste) : Json :=
  Json.obj [("lines", Json.num q.Lines), ("views", Json.num q.Views),
    ("date", Json.str q.Date), ("paste-id", Json.str q.ID),
    ("language", Json.str q.Language), ("private", Json.bool q.Private),
    ("url", Json.str q.URL), ("user", Json.str q.User),
    ("contents", Json.str q.Contents)]

/-- Anonymous default configuration, as produced by NewConfig(). -/
def cfg0 : Config := ⟨RefheapURL, "", ""⟩

/-- An authenticated configuration against a local instance. -/
def cfgAuth : Config := ⟨"http://localhost", "raynes", "123"⟩

/-- A sample fully populated paste record. -/
def p0 : Paste :=
  ⟨1, 2, "2012-01-04T01:44:22.964Z", "1", "Clojure", false,
   "https://www.refheap.com/1", "raynes", "(begin)"⟩

/-- A record whose contents the caller set before a call. -/
def pOld : Paste := ⟨0, 0, "", "42", "", false, "", "", "old"⟩

/-- A transport on which every request fails at the connection level. -/
def trFail : Transport := fun _ => Except.error "connection refused"

/-- A transport answering every request with a service-error body. -/
def trSvc : Transport := fun _ =>
  Except.ok ⟨200, Except.ok (some (Json.obj [("error", Json.str "Paste does not exist.")]))⟩

/-- A transport answering every request with a body that is not valid
JSON. -/
def trBadJson : Transport := fun _ => Except.ok ⟨200, Except.ok none⟩

/-- A transport answering every request with the empty JSON object. -/
def trEmptyObj : Transport := fun _ => Except.ok ⟨200, Except.ok (some (Json.obj []))⟩

/-- A transport answering with a body whose lines field has the wrong
type and whose contents field is a string. -/
def trTypeErr : Transport := fun _ =>
  Except.ok ⟨200, Except.ok (some (Json.obj [("lines", Json.str "x"), ("contents", Json.str "new")]))⟩

/-- A transport answering with a highlight body. -/
def trHighlight : Transport := fun _ =>
  Except.ok ⟨200, Except.ok (some (Json.obj [("content", Json.str "<b>hi</b>")]))⟩

/-- A transport answering every request with the full wire encoding of
p0. -/
def trPaste : Transport := fun _ => Except.ok ⟨200, Except.ok (some (pasteJson p0))⟩


/-- Best-effort field decoding can only report a type-mismatch error:
whatever the fields are, the error component of the fold is either none
or an UnmarshalTypeError. -/
theorem unmarshalFields_err {σ : Type} (set : σ → String → Json → σ × Bool)
    (l : List (String × Json)) (s : σ) (e : Option GoErr)
    (he : e = none ∨ e = some GoErr.typeMismatch) :
    (unmarshalFields set l (s, e)).2 = none ∨
      (unmarshalFields set l (s, e)).2 = some GoErr.typeMismatch := by
  induction l generalizing s e with
  | nil => exact he
  | cons kv rest ih =>
    obtain ⟨k, v⟩ := kv
    rcases hs : set s k v with ⟨s1, bad⟩
    simp only [unmarshalFields, hs]
    apply ih
    rcases he with h | h <;> subst h
    · cases bad <;> simp
    · simp

/-- json.Unmarshal of a parsed JSON value can only report a
type-mismatch error (syntax errors arise before a Json value exists). -/
theorem unmarshalInto_err {σ : Type} (set : σ → String → Json → σ × Bool) (j : Json) (s : σ) :
    (unmarshalInto set j s).2 = none ∨ (unmarshalInto set j s).2 = some GoErr.typeMismatch := by
  cases j with
  | null => exact Or.inl rfl
  | bool b => exact Or.inr rfl
  | num n => exact Or.inr rfl
  | str s2 => exact Or.inr rfl
  | arr es => exact Or.inr rfl
  | obj fields => exact unmarshalFields_err set fields s none (Or.inl rfl)

/-- Specialisation of unmarshalInto_err to the Paste destination. -/
theorem unmarshalPaste_err (j : Json) (p : Paste) :
    (unmarshalPaste j p).2 = none ∨ (unmarshalPaste j p).2 = some GoErr.typeMismatch :=
  unmarshalInto_err pasteSetField j p

/-- Specialisation of unmarshalInto_err to the RefheapError shape. -/
theorem unmarshalRefheapError_err (j : Json) (r : RefheapError) :
    (unmarshalRefheapError j r).2 = none ∨
      (unmarshalRefheapError j r).2 = some GoErr.typeMismatch :=
  unmarshalInto_err refheapSetField j r

/-- If a parseBody call into a Paste destination returned an error other
than a type mismatch, the destination was not touched. -/
theorem pasteResponse_unchanged (p : Paste) (resp : Response) (e : GoErr)
    (he : e ≠ GoErr.typeMismatch) (h : (pasteResponse p resp).2 = some e) :
    (pasteResponse p resp).1 = p := by
  obtain ⟨code, body⟩ := resp
  cases body with
  | error s => rfl
  | ok oj =>
    cases oj with
    | none => rfl
    | some j =>
      rcases hu : unmarshalRefheapError j ⟨""⟩ with ⟨ne, e1⟩
      cases e1 with
      | some err =>
        simp only [pasteResponse, parseBody, readBody]
        rw [hu]
        simp
      | none =>
        by_cases hm : ne.ErrorMessage = ""
        · exfalso
          simp only [pasteResponse, parseBody, readBody] at h
          rw [hu] at h
          simp [hm] at h
          rcases unmarshalPaste_err j p with h0 | h0 <;> rw [h0] at h
          · simp at h
          · simp at h
            exact he h.symm
        · simp only [pasteResponse, parseBody, readBody]
          rw [hu]
          simp [hm]

/-- If an operation built on httpOutcome returned an error other than a
type mismatch, the caller's record was not touched. -/
theorem httpOutcome_unchanged (p : Paste) (r : Except String Response) (e : GoErr)
    (he : e ≠ GoErr.typeMismatch) (h : (httpOutcome p r).2 = some e) :
    (httpOutcome p r).1 = p := by
  cases r with
  | error s => rfl
  | ok resp => exact pasteResponse_unchanged p resp e he h

/-- NewConfig in the default branch: with four or more arguments the
result is the zero configuration together with a ConfigError carrying
the arguments. -/
theorem newConfig_big (args : List String) (h : 4 ≤ args.length) :
    NewConfig args = (⟨"", "", ""⟩, some ⟨args⟩) := by
  rcases args with _ | ⟨a, _ | ⟨b, _ | ⟨c, _ | ⟨d, t⟩⟩⟩⟩
  · simp at h
  · simp at h
  · simp at h
  · simp at h
  · rfl

/-- C1: at a concrete failing transport, Get, Create, Save, Fork and
GetHighlighted all return the transport error unchanged with the record
untouched, but Delete reads the status code of the nil response and
crashes (DeleteOutcome.nilDeref) instead of returning the transport
error, because goheap.go inspects resp.StatusCode before checking the
error of the HTTP call. -/
theorem c1_transport_error_propagation_and_delete_crash :
    Paste.Get cfg0 p0 trFail = (p0, some (GoErr.transport "connection refused")) ∧
    Paste.Create cfg0 p0 trFail = (p0, some (GoErr.transport "connection refused")) ∧
    Paste.Save cfg0 p0 trFail = (p0, some (GoErr.transport "connection refused")) ∧
    Paste.Fork cfg0 p0 trFail = (p0, some (GoErr.transport "connection refused")) ∧
    Paste.GetHighlighted cfg0 p0 trFail =
      (p0, ⟨""⟩, some (GoErr.transport "connection refused")) ∧
    Paste.Delete cfg0 p0 trFail = DeleteOutcome.nilDeref :=
  ⟨rfl, rfl, rfl, rfl, rfl, rfl⟩

/-- C2 counterexample: a well-formed response whose lines field has the
wrong type and whose contents field is a string makes Get return a
decode error while the record has been partially overwritten (its
contents changed from old to new), so a record is not only overwritten
after a response has been decoded without error. -/
theorem c2_counterexample_partial_mutation_on_error :
    (Paste.Get cfg0 pOld trTypeErr).2 = some GoErr.typeMismatch ∧
    (Paste.Get cfg0 pOld trTypeErr).1.Contents = "new" ∧
    pOld.Contents = "old" ∧
    (Paste.Get cfg0 pOld trTypeErr).1 ≠ pOld := by
  refine ⟨rfl, rfl, rfl, ?_⟩
  decide

/-- C2 amended: for the four operations that decode into the Paste
record, the record is unchanged whenever the operation returns a
transport error, a body-read error, a malformed-JSON decode error or a
service error; only a type-mismatch decode error of json.Unmarshal can
leave the record partially overwritten. -/
theorem c2_amended_record_unchanged_on_non_type_errors (cfg : Config) (p : Paste)
    (tr : Transport) (e : GoErr) (he : e ≠ GoErr.typeMismatch) :
    ((Paste.Get cfg p tr).2 = some e → (Paste.Get cfg p tr).1 = p) ∧
    ((Paste.Create cfg p tr).2 = some e → (Paste.Create cfg p tr).1 = p) ∧
    ((Paste.Save cfg p tr).2 = some e → (Paste.Save cfg p tr).1 = p) ∧
    ((Paste.Fork cfg p tr).2 = some e → (Paste.Fork cfg p tr).1 = p) := by
  refine ⟨?_, ?_, ?_, ?_⟩ <;> intro h <;> exact httpOutcome_unchanged _ _ e he h

/-- C2 witness: the amended theorem applied to a concrete service-error
response, where Get leaves the record unchanged. -/
theorem c2_amended_witness : (Paste.Get cfg0 pOld trSvc).1 = pOld :=
  (c2_amended_record_unchanged_on_non_type_errors cfg0 pOld trSvc
    (GoErr.refheap "Paste does not exist.") (by decide)).1 rfl

/-- C3: a body that is not well-formed JSON yields a decode error and
the destination is untouched; a body whose error field decodes to a
non-empty string yields a service error carrying exactly that message
and the destination is not parsed into; otherwise, with a destination
supplied, the body is decoded a second time into the destination shape
and the result of that decode (state and error) is returned, and any
error of the second decode is a decode error; an error of the first
decode is likewise surfaced as a decode error with the destination
untouched. -/
theorem c3_parseBody_decoding (resp : Response) (dst0 : Option Paste) (dst : Paste)
    (j : Json) (m : String) :
    (readBody resp = Except.ok none →
      parseBody unmarshalPaste resp dst0 = (dst0, some GoErr.badJson) ∧
        GoErr.badJson.isDecode = true) ∧
    (readBody resp = Except.ok (some j) →
      unmarshalRefheapError j ⟨""⟩ = (⟨m⟩, none) → m ≠ "" →
      parseBody unmarshalPaste resp dst0 = (dst0, some (GoErr.refheap m))) ∧
    (readBody resp = Except.ok (some j) →
      unmarshalRefheapError j ⟨""⟩ = (⟨""⟩, none) →
      parseBody unmarshalPaste resp (some dst) =
        (some (unmarshalPaste j dst).1, (unmarshalPaste j dst).2)) ∧
    (∀ e, (unmarshalPaste j dst).2 = some e → e.isDecode = true) ∧
    (∀ r1 e1, readBody resp = Except.ok (some j) →
      unmarshalRefheapError j ⟨""⟩ = (r1, some e1) →
      parseBody unmarshalPaste resp dst0 = (dst0, some e1) ∧ e1.isDecode = true) := by
  obtain ⟨code, body⟩ := resp
  refine ⟨?_, ?_, ?_, ?_, ?_⟩
  · intro h
    have hb : body = Except.ok none := h
    subst hb
    exact ⟨rfl, rfl⟩
  · intro h hu hm
    have hb : body = Except.ok (some j) := h
    subst hb
    simp only [parseBody, readBody]
    rw [hu]
    simp [hm]
  · intro h hu
    have hb : body = Except.ok (some j) := h
    subst hb
    simp only [parseBody, readBody]
    rw [hu]
    simp
  · intro e hpe
    rcases unmarshalPaste_err j dst with h0 | h0 <;> rw [h0] at hpe
    · simp at hpe
    · simp at hpe
      subst hpe
      rfl
  · intro r1 e1 h hu
    have hb : body = Except.ok (some j) := h
    subst hb
    have hd : e1.isDecode = true := by
      rcases unmarshalRefheapError_err j ⟨""⟩ with h0 | h0 <;> rw [hu] at h0
      · simp at h0
      · simp at h0
        subst h0
        rfl
    refine ⟨?_, hd⟩
    simp only [parseBody, readBody]
    rw [hu]

/-- C3 witness: the decoding theorem applied at a malformed body, a
service-error body and a clean body. -/
theorem c3_witness :
    parseBody unmarshalPaste ⟨200, Except.ok none⟩ (some p0) = (some p0, some GoErr.badJson) ∧
    parseBody unmarshalPaste ⟨200, Except.ok (some (Json.obj [("error", Json.str "nope")]))⟩
      (some p0) = (some p0, some (GoErr.refheap "nope")) ∧
    parseBody unmarshalPaste ⟨200, Except.ok (some (Json.obj []))⟩ (some p0) =
      (some (unmarshalPaste (Json.obj []) p0).1, (unmarshalPaste (Json.obj []) p0).2) :=
  ⟨((c3_parseBody_decoding ⟨200, Except.ok none⟩ (some p0) p0 Json.null "x").1 rfl).1,
   (c3_parseBody_decoding ⟨200, Except.ok (some (Json.obj [("error", Json.str "nope")]))⟩
      (some p0) p0 (Json.obj [("error", Json.str "nope")]) "nope").2.1 rfl rfl (by decide),
   (c3_parseBody_decoding ⟨200, Except.ok (some (Json.obj []))⟩ (some p0) p0
      (Json.obj []) "").2.2.1 rfl rfl⟩

/-- C4: the convenience constructor returns the default address and no
credentials for zero arguments, the argument as address for one, the
default address with username and token for two, address, username and
token for three, and a ConfigError carrying the full argument list for
any other count. -/
theorem c4_newConfig_table (a b c : String) (args : List String) (h : 4 ≤ args.length) :
    NewConfig [] = (⟨RefheapURL, "", ""⟩, none) ∧
    NewConfig [a] = (⟨a, "", ""⟩, none) ∧
    NewConfig [a, b] = (⟨RefheapURL, a, b⟩, none) ∧
    NewConfig [a, b, c] = (⟨a, b, c⟩, none) ∧
    (NewConfig args).2 = some ⟨args⟩ := by
  refine ⟨rfl, rfl, rfl, rfl, ?_⟩
  rw [newConfig_big args h]

/-- C4 witness: the constructor table at concrete argument lists,
including the failing four-argument call of the test suite. -/
theorem c4_witness :
    NewConfig ["foo", "raynes", "123"] = (⟨"foo", "raynes", "123"⟩, none) ∧
    (NewConfig ["", "", "", ""]).2 = some ⟨["", "", "", ""]⟩ :=
  ⟨(c4_newConfig_table "foo" "raynes" "123" ["", "", "", ""] (by decide)).2.2.2.1,
   (c4_newConfig_table "foo" "raynes" "123" ["", "", "", ""] (by decide)).2.2.2.2⟩

/-- C5: with a non-empty username, addAuth appends exactly the username
field and the token field (the token even when empty); with an empty
username it appends nothing, whatever the token is. -/
theorem c5_addAuth (data : List (String × String)) (config : Config) :
    (config.User ≠ "" →
      addAuth data config = data ++ [("username", config.User), ("token", config.Key)]) ∧
    (config.User = "" → addAuth data config = data) := by
  constructor
  · intro h
    simp [addAuth, Values.add, h]
  · intro h
    simp [addAuth, h]

/-- C5 witness: addAuth at an authenticated configuration, at a
configuration with a username but an empty token, and at the anonymous
configuration. -/
theorem c5_witness :
    addAuth [] cfgAuth = [("username", "raynes"), ("token", "123")] ∧
    addAuth [] ⟨RefheapURL, "u", ""⟩ = [("username", "u"), ("token", "")] ∧
    addAuth [] cfg0 = [] :=
  ⟨(c5_addAuth [] cfgAuth).1 (by decide),
   (c5_addAuth [] ⟨RefheapURL, "u", ""⟩).1 (by decide),
   (c5_addAuth [] cfg0).2 rfl⟩

/-- C6: Save builds exactly the form body that Create builds for the
same record and configuration, and the two requests differ only in
their path; the body carries the private flag always (as the literal
true or false), the contents and language fields exactly when
non-empty, and the username and token fields exactly when a username is
configured. -/
theorem c6_save_create_same_body (cfg : Config) (p : Paste) :
    (Paste.saveRequest cfg p).form = (Paste.createRequest cfg p).form ∧
    (Paste.createRequest cfg p).url = cfg.URL ++ "/paste" ∧
    (Paste.saveRequest cfg p).url = cfg.URL ++ "/paste/" ++ p.ID ∧
    (∀ tr, Paste.Create cfg p tr = httpOutcome p (tr (Paste.createRequest cfg p))) ∧
    (∀ tr, Paste.Save cfg p tr = httpOutcome p (tr (Paste.saveRequest cfg p))) ∧
    ("private", formatBool p.Private) ∈ (Paste.createRequest cfg p).form ∧
    (formatBool p.Private = "true" ∨ formatBool p.Private = "false") ∧
    (("contents", p.Contents) ∈ (Paste.createRequest cfg p).form ↔ p.Contents ≠ "") ∧
    (("language", p.Language) ∈ (Paste.createRequest cfg p).form ↔ p.Language ≠ "") ∧
    (("username", cfg.User) ∈ (Paste.createRequest cfg p).form ↔ cfg.User ≠ "") ∧
    (("token", cfg.Key) ∈ (Paste.createRequest cfg p).form ↔ cfg.User ≠ "") := by
  refine ⟨rfl, rfl, rfl, fun tr => rfl, fun tr => rfl, ?_, ?_, ?_, ?_, ?_, ?_⟩
  · simp only [Paste.createRequest, createOrSaveData, addAuth, Values.add]
    by_cases hu : cfg.User = "" <;> by_cases hc : p.Contents = "" <;>
      by_cases hl : p.Language = "" <;> simp [hu, hc, hl]
  · cases hb : p.Private <;> simp [formatBool, hb]
  · simp only [Paste.createRequest, createOrSaveData, addAuth, Values.add]
    by_cases hu : cfg.User = "" <;> by_cases hc : p.Contents = "" <;>
      by_cases hl : p.Language = "" <;> simp [hu, hc, hl, formatBool]
  · simp only [Paste.createRequest, createOrSaveData, addAuth, Values.add]
    by_cases hu : cfg.User = "" <;> by_cases hc : p.Contents = "" <;>
      by_cases hl : p.Language = "" <;> simp [hu, hc, hl, formatBool]
  · simp only [Paste.createRequest, createOrSaveData, addAuth, Values.add]
    by_cases hu : cfg.User = "" <;> by_cases hc : p.Contents = "" <;>
      by_cases hl : p.Language = "" <;> simp [hu, hc, hl, formatBool]
  · simp only [Paste.createRequest, createOrSaveData, addAuth, Values.add]
    by_cases hu : cfg.User = "" <;> by_cases hc : p.Contents = "" <;>
      by_cases hl : p.Language = "" <;> simp [hu, hc, hl, formatBool]

/-- C6 witness: the body identity at a concrete configuration and
record. -/
theorem c6_witness :
    (Paste.saveRequest cfgAuth p0).form = (Paste.createRequest cfgAuth p0).form :=
  (c6_save_create_same_body cfgAuth p0).1

/-- A record whose identifier the caller set to a. -/
def pasteA : Paste := ⟨0, 0, "", "a", "", false, "", "", ""⟩

/-- A record whose identifier the caller set to b. -/
def pasteB : Paste := ⟨0, 0, "", "b", "", false, "", "", ""⟩

/-- C7 counterexample: against a response whose body is the empty JSON
object, Get succeeds (returns no error) yet two records with different
identifiers keep their respective prior identifiers, so a successful
Get does not overwrite all fields of the record with the decoded
response: fields absent from the response JSON keep their prior
values. -/
theorem c7_counterexample_success_without_overwrite :
    (Paste.Get cfg0 pasteA trEmptyObj).2 = none ∧
    (Paste.Get cfg0 pasteB trEmptyObj).2 = none ∧
    (Paste.Get cfg0 pasteA trEmptyObj).1 = pasteA ∧
    (Paste.Get cfg0 pasteB trEmptyObj).1 = pasteB ∧
    pasteA.ID ≠ pasteB.ID := by
  refine ⟨rfl, rfl, rfl, rfl, ?_⟩
  decide

/-- C7 amended: Get issues a GET request to exactly the base address
followed by /paste/ and the identifier, with no form fields (in
particular no username or token); on a success whose body carries all
nine wire fields the whole record, identifier included, is overwritten
with the decoded response values (fields absent from a response body
would keep their prior values). -/
theorem c7_amended_get_request_and_full_overwrite (cfg : Config) (p q : Paste)
    (tr : Transport) (resp : Response)
    (h1 : tr (Paste.getRequest cfg p) = Except.ok resp)
    (h2 : readBody resp = Except.ok (some (pasteJson q))) :
    (Paste.getRequest cfg p).url = cfg.URL ++ "/paste/" ++ p.ID ∧
    (Paste.getRequest cfg p).form = [] ∧
    Paste.Get cfg p tr = (q, none) := by
  refine ⟨rfl, rfl, ?_⟩
  obtain ⟨code, body⟩ := resp
  have hb : body = Except.ok (some (pasteJson q)) := h2
  subst hb
  show httpOutcome p (tr (Paste.getRequest cfg p)) = (q, none)
  rw [h1]
  rfl

/-- C7 witness: the amended theorem at a transport answering with the
full wire encoding of p0, overwriting a record that held only an
identifier. -/
theorem c7_amended_witness : Paste.Get cfg0 pasteA trPaste = (p0, none) :=
  (c7_amended_get_request_and_full_overwrite cfg0 pasteA p0 trPaste
    ⟨200, Except.ok (some (pasteJson p0))⟩ rfl rfl).2.2

/-- C8: the default base address of the package equals exactly the
official refheap API address. -/
theorem c8_default_url : RefheapURL = "https://www.refheap.com/api" := rfl

/-- C9: GetHighlighted leaves the caller's record unchanged on every
path, sends a GET request to the base address followed by /paste/, the
identifier and /highlight with no form fields (no authentication), and
on a success whose body carries the content field returns a separate
result holding exactly that rendered string. -/
theorem c9_getHighlighted_frame (cfg : Config) (p : Paste) (tr : Transport) :
    (Paste.GetHighlighted cfg p tr).1 = p ∧
    (Paste.highlightRequest cfg p).url = cfg.URL ++ "/paste/" ++ p.ID ++ "/highlight" ∧
    (Paste.highlightRequest cfg p).form = [] ∧
    (∀ resp s, tr (Paste.highlightRequest cfg p) = Except.ok resp →
      readBody resp = Except.ok (some (Json.obj [("content", Json.str s)])) →
      (Paste.GetHighlighted cfg p tr).2 = (⟨s⟩, none)) := by
  refine ⟨?_, rfl, rfl, ?_⟩
  · cases htr : tr (Paste.highlightRequest cfg p) with
    | error e => simp [Paste.GetHighlighted, htr]
    | ok resp => simp [Paste.GetHighlighted, htr]
  · intro resp s h1 h2
    obtain ⟨code, body⟩ := resp
    have hb : body = Except.ok (some (Json.obj [("content", Json.str s)])) := h2
    subst hb
    simp only [Paste.GetHighlighted, h1]
    rfl

/-- C9 witness: GetHighlighted at a concrete highlight response. -/
theorem c9_witness :
    (Paste.GetHighlighted cfg0 p0 trHighlight).1 = p0 ∧
    (Paste.GetHighlighted cfg0 p0 trHighlight).2 = (⟨"<b>hi</b>"⟩, none) :=
  ⟨(c9_getHighlighted_frame cfg0 p0 trHighlight).1,
   (c9_getHighlighted_frame cfg0 p0 trHighlight).2.2.2
     ⟨200, Except.ok (some (Json.obj [("content", Json.str "<b>hi</b>")]))⟩
     "<b>hi</b>" rfl rfl⟩

/-- C10: with an argument count outside zero to three, NewConfig
returns the zero-valued configuration (all three fields empty)
alongside the ConfigError, and that configuration differs from the
default configuration. -/
theorem c10_zero_config_on_error (args : List String) (h : 4 ≤ args.length) :
    NewConfig args = (⟨"", "", ""⟩, some ⟨args⟩) ∧
    (NewConfig args).1 ≠ (NewConfig []).1 := by
  refine ⟨newConfig_big args h, ?_⟩
  rw [newConfig_big args h]
  show (⟨"", "", ""⟩ : Config) ≠ (NewConfig []).1
  decide

/-- C10 witness: the zero configuration at a concrete four-argument
call. -/
theorem c10_witness :
    NewConfig ["a", "b", "c", "d"] = (⟨"", "", ""⟩, some ⟨["a", "b", "c", "d"]⟩) :=
  (c10_zero_config_on_error ["a", "b", "c", "d"] (by decide)).1
